import Mathlib

/-! projections.cpp: geometry generators, draw calls and the render loop

A shallow embedding of `src/projections/projections.cpp`.

* `float` values are elements of an arbitrary carrier `F`; the primitive
  operations on them (literal/int conversion, `+ - * /`, `cos`, `sin`) are the
  fields of `FloatArith F`.  Every theorem quantified over `ops : FloatArith F`
  holds for each deterministic interpretation of these primitives, IEEE-754
  binary32 included; no algebraic law is assumed of them.
* `int` values are `Int`; the one multiplication that can leave the 32-bit
  range (`num_ring_segments_per_color_segment*2`) is reduced with `wrap32`,
  and a trapping `%` or `/` has no result (`Option`).
* `linmath.h` is not part of the source file: its four matrix functions are
  the fields of `LinMath F M`.
* calls into GLFW/OpenGL are recorded, in order, as a list of `Call`s; the
  values the backend returns are inputs (`Env`, `GridReturns`, `ColorReturns`).
* two interpretations of the `float` primitives serve to evaluate the
  definitions: `ratArith` (exact rationals) and `f32Arith` (binary32, round to
  nearest even).
-/

namespace Projections

/-! ## Machine integers -/

/-- The largest `int`. -/
def INT_MAX : Int := 2147483647

/-- The smallest `int`. -/
def INT_MIN : Int := -2147483648

/-- Two's-complement reduction of an integer to the 32-bit `int` range. -/
def wrap32 (x : Int) : Int := (x + 2147483648) % 4294967296 - 2147483648

/-- The `int` product `a * b`.  A product outside the 32-bit range is undefined
in C++; the model takes the two's-complement result that the usual targets
compute. -/
def int_mul (a b : Int) : Int := wrap32 (a * b)

/-- The `int` remainder `a % b` (sign of the dividend); no result when the
division traps (`b = 0`, or `INT_MIN % -1`). -/
def int_mod (a b : Int) : Option Int :=
  if b = 0 ∨ (a = INT_MIN ∧ b = -1) then none else some (Int.tmod a b)

/-- The `int` quotient `a / b` (truncating); no result when the division
traps (`b = 0`, or `INT_MIN / -1`). -/
def int_div (a b : Int) : Option Int :=
  if b = 0 ∨ (a = INT_MIN ∧ b = -1) then none else some (Int.tdiv a b)

/-- The cast `(GLsizei)n` of a `size_t` to a 32-bit signed integer. -/
def toGLsizei (n : Nat) : Int := wrap32 (n : Int)

/-! ## Floating point primitives -/

/-- The primitive `float` operations used by the program.  `ofRat q` is the
`float` obtained from the exact value `q` (a literal such as `0.05f`, or the
conversion of an `int` to `float`). -/
structure FloatArith (F : Type) where
  ofRat : ℚ → F
  add : F → F → F
  sub : F → F → F
  mul : F → F → F
  div : F → F → F
  cos : F → F
  sin : F → F

/-- The constant `constexpr float pi = 3.14159265358979323846f`. -/
def pi {F : Type} (ops : FloatArith F) : F := ops.ofRat 3.14159265358979323846

/-! ## Data model -/

/-- The `struct rgb`. -/
structure rgb (F : Type) where
  r : F
  g : F
  b : F
deriving DecidableEq, Repr

/-- The `struct VertexColor`. -/
structure VertexColor (F : Type) where
  x : F
  y : F
  r : F
  g : F
  b : F
deriving DecidableEq, Repr

/-- The constructor `VertexColor(float xin, float yin, rgb rgbin)`. -/
def VertexColor.ofRgb {F : Type} (xin yin : F) (rgbin : rgb F) : VertexColor F :=
  { x := xin, y := yin, r := rgbin.r, g := rgbin.g, b := rgbin.b }

/-- The position `(x, y)` of a vertex. -/
def VertexColor.pos {F : Type} (v : VertexColor F) : F × F := (v.x, v.y)

/-- The color `(r, g, b)` of a vertex. -/
def VertexColor.color {F : Type} (v : VertexColor F) : rgb F := { r := v.r, g := v.g, b := v.b }

/-- The `struct GridVertex`. -/
structure GridVertex (F : Type) where
  x : F
  y : F
deriving DecidableEq, Repr

/-! ## make_ring_vertices -/

/-- The `for` loop of `make_ring_vertices`, started at `current_segment` with
the vector `ret` built so far.  The first argument bounds the number of
iterations; the result is `none` when that bound is used up while the loop
guard still holds, or when `%` traps. -/
def make_ring_vertices_loop {F : Type} (ops : FloatArith F) (inner outer : F)
    (num_ring_segments num_ring_segments_per_color_segment : Int) (color1 color2 : rgb F)
    (radians_per_segment starting_angle : F) :
    Nat → Int → List (VertexColor F) → Option (List (VertexColor F))
  | 0, current_segment, ret =>
    if current_segment < num_ring_segments then none else some ret
  | fuel + 1, current_segment, ret =>
    if current_segment < num_ring_segments then
      match int_mod current_segment (int_mul num_ring_segments_per_color_segment 2) with
      | none => none
      | some m =>
        let color : Int := if m < num_ring_segments_per_color_segment then 0 else 1
        let rgb := if color = 0 then color1 else color2
        let t := ops.add starting_angle (ops.mul radians_per_segment (ops.ofRat current_segment))
        -- push ab
        let ret := ret ++ [VertexColor.ofRgb (ops.mul inner (ops.cos t)) (ops.mul inner (ops.sin t)) rgb]
        let ret := ret ++ [VertexColor.ofRgb (ops.mul outer (ops.cos t)) (ops.mul outer (ops.sin t)) rgb]
        -- push cd
        let t := ops.add starting_angle
          (ops.mul radians_per_segment (ops.ofRat ((current_segment + 1 : Int) : ℚ)))
        let ret := ret ++ [VertexColor.ofRgb (ops.mul outer (ops.cos t)) (ops.mul outer (ops.sin t)) rgb]
        let ret := ret ++ [VertexColor.ofRgb (ops.mul inner (ops.cos t)) (ops.mul inner (ops.sin t)) rgb]
        make_ring_vertices_loop ops inner outer num_ring_segments
          num_ring_segments_per_color_segment color1 color2 radians_per_segment starting_angle
          fuel (current_segment + 1) ret
    else some ret

/-- The function `make_ring_vertices`.  The loop runs from `current_segment = 0`
and is given `num_ring_segments` iterations, which is what its guard allows. -/
def make_ring_vertices {F : Type} (ops : FloatArith F) (inner outer : F)
    (num_ring_segments num_ring_segments_per_color_segment : Int) (color1 color2 : rgb F) :
    Option (List (VertexColor F)) :=
  let radians_per_segment := ops.div (ops.mul (ops.ofRat 2) (pi ops)) (ops.ofRat num_ring_segments)
  let starting_angle := ops.ofRat 0
  make_ring_vertices_loop ops inner outer num_ring_segments num_ring_segments_per_color_segment
    color1 color2 radians_per_segment starting_angle num_ring_segments.toNat 0 []

/-- The color index (`0` for `color1`, `1` for `color2`) that iteration
`current_segment` of the loop in `make_ring_vertices` selects. -/
def ring_color_index (num_ring_segments_per_color_segment : Int) (current_segment : Nat) : Int :=
  if Int.tmod current_segment (int_mul num_ring_segments_per_color_segment 2)
      < num_ring_segments_per_color_segment then 0 else 1

/-- The four vertices that iteration `current_segment` of the loop in
`make_ring_vertices` appends. -/
def ring_slice {F : Type} (ops : FloatArith F) (inner outer : F)
    (num_ring_segments num_ring_segments_per_color_segment : Int) (color1 color2 : rgb F)
    (current_segment : Nat) : List (VertexColor F) :=
  let radians_per_segment := ops.div (ops.mul (ops.ofRat 2) (pi ops)) (ops.ofRat num_ring_segments)
  let rgb := if ring_color_index num_ring_segments_per_color_segment current_segment = 0
    then color1 else color2
  let t0 := ops.add (ops.ofRat 0) (ops.mul radians_per_segment (ops.ofRat (current_segment : Int)))
  let t1 := ops.add (ops.ofRat 0)
    (ops.mul radians_per_segment (ops.ofRat (((current_segment : Int) + 1 : Int) : ℚ)))
  [VertexColor.ofRgb (ops.mul inner (ops.cos t0)) (ops.mul inner (ops.sin t0)) rgb,
   VertexColor.ofRgb (ops.mul outer (ops.cos t0)) (ops.mul outer (ops.sin t0)) rgb,
   VertexColor.ofRgb (ops.mul outer (ops.cos t1)) (ops.mul outer (ops.sin t1)) rgb,
   VertexColor.ofRgb (ops.mul inner (ops.cos t1)) (ops.mul inner (ops.sin t1)) rgb]

/-- The angle `starting_angle + radians_per_segment * j` that `make_ring_vertices`
computes for segment boundary `j` of a ring of `num_ring_segments` segments
(`starting_angle = 0`, `radians_per_segment = 2.0f * pi / num_ring_segments`). -/
def segment_angle {F : Type} (ops : FloatArith F) (num_ring_segments : Int) (j : Int) : F :=
  ops.add (ops.ofRat 0)
    (ops.mul (ops.div (ops.mul (ops.ofRat 2) (pi ops)) (ops.ofRat num_ring_segments)) (ops.ofRat j))

/-- The angle of segment boundary `j` as the specification writes it:
`j * (2*pi/segment_count)`. -/
def spec_angle {F : Type} (ops : FloatArith F) (segment_count : Int) (j : Int) : F :=
  ops.mul (ops.ofRat j) (ops.div (ops.mul (ops.ofRat 2) (pi ops)) (ops.ofRat segment_count))

/-! ## make_grid_vertices -/

/-- The function `make_grid_vertices`. -/
def make_grid_vertices {F : Type} (ops : FloatArith F) : List (GridVertex F) :=
  [ -- horizontal lines
    ⟨ops.ofRat (-2.5), ops.ofRat 2⟩, ⟨ops.ofRat 2.5, ops.ofRat 2⟩,
    ⟨ops.ofRat (-2.5), ops.ofRat 1⟩, ⟨ops.ofRat 2.5, ops.ofRat 1⟩,
    ⟨ops.ofRat (-2.5), ops.ofRat 0⟩, ⟨ops.ofRat 2.5, ops.ofRat 0⟩,
    ⟨ops.ofRat (-2.5), ops.ofRat (-1)⟩, ⟨ops.ofRat 2.5, ops.ofRat (-1)⟩,
    ⟨ops.ofRat (-2.5), ops.ofRat (-2)⟩, ⟨ops.ofRat 2.5, ops.ofRat (-2)⟩,
    -- vertical lines
    ⟨ops.ofRat (-2), ops.ofRat 2.5⟩, ⟨ops.ofRat (-2), ops.ofRat (-2.5)⟩,
    ⟨ops.ofRat (-1), ops.ofRat 2.5⟩, ⟨ops.ofRat (-1), ops.ofRat (-2.5)⟩,
    ⟨ops.ofRat 0, ops.ofRat 2.5⟩, ⟨ops.ofRat 0, ops.ofRat (-2.5)⟩,
    ⟨ops.ofRat 1, ops.ofRat 2.5⟩, ⟨ops.ofRat 1, ops.ofRat (-2.5)⟩,
    ⟨ops.ofRat 2, ops.ofRat 2.5⟩, ⟨ops.ofRat 2, ops.ofRat (-2.5)⟩ ]

/-! ## The vertex list of ProjectionLines::Create -/

/-- The `for` loop of `ProjectionLines::Create`, started at `current_segment`
with the vector `ret` built so far.  The first argument bounds the number of
iterations; the result is `none` when that bound is used up while the loop
guard still holds. -/
def projection_lines_loop {F : Type} (ops : FloatArith F) (num_color_segments : Int)
    (radians_per_segment starting_angle : F) (rgb : rgb F) :
    Nat → Int → List (VertexColor F) → Option (List (VertexColor F))
  | 0, current_segment, ret =>
    if current_segment < num_color_segments then none else some ret
  | fuel + 1, current_segment, ret =>
    if current_segment < num_color_segments then
      let t := ops.add starting_angle (ops.mul radians_per_segment (ops.ofRat current_segment))
      let ret := ret ++ [VertexColor.ofRgb (ops.ofRat (-1)) (ops.ofRat 0) rgb]
      let ret := ret ++ [VertexColor.ofRgb (ops.cos t) (ops.sin t) rgb]
      projection_lines_loop ops num_color_segments radians_per_segment starting_angle rgb
        fuel (current_segment + 1) ret
    else some ret

/-- The first part of `ProjectionLines::Create`: the vector stored in
`vertices`.  No result when the division `num_ring_segments /
num_ring_segments_per_color` traps. -/
def projection_lines_vertices {F : Type} (ops : FloatArith F)
    (num_ring_segments num_ring_segments_per_color : Int) : Option (List (VertexColor F)) :=
  match int_div num_ring_segments num_ring_segments_per_color with
  | none => none
  | some num_color_segments =>
    let radians_per_segment :=
      ops.div (ops.mul (ops.ofRat 2) (pi ops)) (ops.ofRat num_color_segments)
    let starting_angle := ops.ofRat 0
    let rgb : rgb F := ⟨ops.ofRat 1, ops.div (ops.ofRat 242) (ops.ofRat 256), ops.ofRat 0⟩
    projection_lines_loop ops num_color_segments radians_per_segment starting_angle rgb
      num_color_segments.toNat 0 []

/-- The two vertices that iteration `current_segment` of the loop in
`ProjectionLines::Create` appends. -/
def projection_line {F : Type} (ops : FloatArith F) (num_color_segments : Int)
    (current_segment : Nat) : List (VertexColor F) :=
  let radians_per_segment :=
    ops.div (ops.mul (ops.ofRat 2) (pi ops)) (ops.ofRat num_color_segments)
  let rgb : rgb F := ⟨ops.ofRat 1, ops.div (ops.ofRat 242) (ops.ofRat 256), ops.ofRat 0⟩
  let t := ops.add (ops.ofRat 0) (ops.mul radians_per_segment (ops.ofRat (current_segment : Int)))
  [VertexColor.ofRgb (ops.ofRat (-1)) (ops.ofRat 0) rgb,
   VertexColor.ofRgb (ops.cos t) (ops.sin t) rgb]

/-! ## linmath.h and the transform -/

/-- The functions of `linmath.h` that the program calls, over a carrier `M` of
4x4 matrices: `mat4x4_identity(M)`, `mat4x4_ortho(M, l, r, b, t, n, f)`,
`mat4x4_translate(M, x, y, z)` and `mat4x4_mul(M, a, b)` (the product `a * b`),
each given as the matrix it stores in its first argument. -/
structure LinMath (F M : Type) where
  mat4x4_identity : M
  mat4x4_ortho : F → F → F → F → F → F → M
  mat4x4_translate : F → F → F → M
  mat4x4_mul : M → M → M

/-- The global `float ortho_l = -4.0`. -/
def ortho_l {F : Type} (ops : FloatArith F) : F := ops.ofRat (-4.0)

/-- The global `float ortho_r = 4.0`. -/
def ortho_r {F : Type} (ops : FloatArith F) : F := ops.ofRat 4.0

/-- The global `float ortho_t = -4.0`. -/
def ortho_t {F : Type} (ops : FloatArith F) : F := ops.ofRat (-4.0)

/-- The global `float ortho_b = 4.0`. -/
def ortho_b {F : Type} (ops : FloatArith F) : F := ops.ofRat 4.0

/-! ## Calls into GLFW and OpenGL -/

/-- The OpenGL enumerants the program passes. -/
inductive GLenum where
  | GL_VERTEX_SHADER | GL_FRAGMENT_SHADER | GL_ARRAY_BUFFER | GL_STATIC_DRAW
  | GL_FLOAT | GL_LINES | GL_QUADS | GL_COLOR_BUFFER_BIT
deriving DecidableEq, Repr

/-- The GLFW window hints the program sets. -/
inductive GLFWhint where
  | GLFW_CONTEXT_VERSION_MAJOR | GLFW_CONTEXT_VERSION_MINOR | GLFW_SAMPLES
deriving DecidableEq, Repr

/-- The four shader sources, by the name of the variable that holds the text. -/
inductive ShaderText where
  | vertex_shader_text | fragment_shader_text
  | grid_vertex_shader_text | grid_fragment_shader_text
deriving DecidableEq, Repr

/-- The conversion of a `GLint` to a `GLuint` argument. -/
def toGLuint (x : Int) : Nat := (x % 4294967296).toNat

/-- One call into GLFW, glad or OpenGL, with the arguments the program passes
(window and output-pointer arguments left out). -/
inductive Call (F M : Type) where
  | glfwSetErrorCallback
  | glfwInit
  | glfwWindowHint (hint : GLFWhint) (value : Int)
  | glfwCreateWindow (width height : Int) (title : String)
  | glfwTerminate
  | glfwMakeContextCurrent
  | gladLoadGL
  | glfwSwapInterval (interval : Int)
  | glfwWindowShouldClose
  | glfwGetFramebufferSize
  | glfwSwapBuffers
  | glfwPollEvents
  | glViewport (x y width height : Int)
  | glClear (mask : GLenum)
  | glGenBuffers (n : Int)
  | glCreateShader (type : GLenum)
  | glShaderSource (shader : Nat) (count : Int) (text : ShaderText)
  | glCompileShader (shader : Nat)
  | glCreateProgram
  | glAttachShader (program shader : Nat)
  | glLinkProgram (program : Nat)
  | glGetUniformLocation (program : Nat) (name : String)
  | glGetAttribLocation (program : Nat) (name : String)
  | glBindBuffer (target : GLenum) (buffer : Nat)
  | glBufferData (target : GLenum) (size : Nat) (data : List F) (usage : GLenum)
  | glEnableVertexAttribArray (index : Nat)
  | glVertexAttribPointer (index : Nat) (size : Int) (type : GLenum) (normalized : Bool)
      (stride : Nat) (pointer : Nat)
  | glUseProgram (program : Nat)
  | glUniformMatrix4fv (location : Int) (count : Int) (transpose : Bool) (value : M)
  | glDrawArrays (mode : GLenum) (first : Int) (count : Int)

/-- Whether a call is a draw call. -/
def Call.isDraw {F M : Type} : Call F M → Bool
  | .glDrawArrays _ _ _ => true
  | _ => false

/-- Whether a call creates a rendering resource (buffer, shader or program). -/
def Call.isCreate {F M : Type} : Call F M → Bool
  | .glGenBuffers _ => true
  | .glCreateShader _ => true
  | .glCreateProgram => true
  | _ => false

/-- The matrix a call uploads to a uniform, if it is such a call. -/
def Call.uniformMatrix {F M : Type} : Call F M → Option M
  | .glUniformMatrix4fv _ _ _ value => some value
  | _ => none

/-- The values OpenGL returns while a `Grid` is created. -/
structure GridReturns where
  glGenBuffers : Nat
  glCreateShader_vertex : Nat
  glCreateShader_fragment : Nat
  glCreateProgram : Nat
  glGetUniformLocation_MVP : Int
  glGetAttribLocation_vPos : Int

/-- The values OpenGL returns while a `Ring` or a `ProjectionLines` is created. -/
structure ColorReturns where
  glCreateShader_vertex : Nat
  glCreateShader_fragment : Nat
  glCreateProgram : Nat
  glGetUniformLocation_MVP : Int
  glGetAttribLocation_vPos : Int
  glGetAttribLocation_vCol : Int
  glGenBuffers : Nat

/-- The bytes of a `GridVertex`: `sizeof(GridVertex)`. -/
def sizeof_GridVertex : Nat := 8

/-- The bytes of a `VertexColor`: `sizeof(VertexColor)`. -/
def sizeof_VertexColor : Nat := 20

/-- The bytes of a `float`: `sizeof(float)`. -/
def sizeof_float : Nat := 4

/-- The floats of a `GridVertex` array, in memory order. -/
def GridVertex.data {F : Type} (vs : List (GridVertex F)) : List F :=
  vs.flatMap (fun v => [v.x, v.y])

/-- The floats of a `VertexColor` array, in memory order. -/
def VertexColor.data {F : Type} (vs : List (VertexColor F)) : List F :=
  vs.flatMap (fun v => [v.x, v.y, v.r, v.g, v.b])

/-! ## class Grid -/

/-- The members of `class Grid`. -/
structure Grid (F : Type) where
  vertex_buffer : Nat
  vertex_shader : Nat
  fragment_shader : Nat
  program : Nat
  mvp_location : Int
  vpos_location : Int
  vertices : List (GridVertex F)

/-- The method `Grid::Create`: the object it initialises and the calls it makes. -/
def Grid.Create {F : Type} (M : Type) (ops : FloatArith F) (gl : GridReturns) :
    Grid F × List (Call F M) :=
  let vertices := make_grid_vertices ops
  let vertex_buffer := gl.glGenBuffers
  let vertex_shader := gl.glCreateShader_vertex
  let fragment_shader := gl.glCreateShader_fragment
  let program := gl.glCreateProgram
  let mvp_location := gl.glGetUniformLocation_MVP
  let vpos_location := gl.glGetAttribLocation_vPos
  ({ vertex_buffer := vertex_buffer, vertex_shader := vertex_shader,
     fragment_shader := fragment_shader, program := program,
     mvp_location := mvp_location, vpos_location := vpos_location, vertices := vertices },
   [ .glGenBuffers 1,
     .glCreateShader .GL_VERTEX_SHADER,
     .glShaderSource vertex_shader 1 .grid_vertex_shader_text,
     .glCompileShader vertex_shader,
     .glCreateShader .GL_FRAGMENT_SHADER,
     .glShaderSource fragment_shader 1 .grid_fragment_shader_text,
     .glCompileShader fragment_shader,
     .glCreateProgram,
     .glAttachShader program vertex_shader,
     .glAttachShader program fragment_shader,
     .glLinkProgram program,
     .glGetUniformLocation program "MVP",
     .glGetAttribLocation program "vPos" ])

/-- The method `Grid::Draw`: the calls it makes. -/
def Grid.Draw {F M : Type} (ops : FloatArith F) (lm : LinMath F M) (self : Grid F) :
    List (Call F M) :=
  let m := lm.mat4x4_identity
  let p := lm.mat4x4_ortho (ortho_l ops) (ortho_r ops) (ortho_t ops) (ortho_b ops)
    (ops.ofRat 10) (ops.ofRat (-10))
  let v := lm.mat4x4_translate (ops.ofRat (-1)) (ops.ofRat 0) (ops.ofRat 0)
  -- make mvp
  let pv := lm.mat4x4_mul p v
  let mvp := lm.mat4x4_mul m pv
  [ .glBindBuffer .GL_ARRAY_BUFFER self.vertex_buffer,
    .glBufferData .GL_ARRAY_BUFFER (self.vertices.length * sizeof_GridVertex)
      (GridVertex.data self.vertices) .GL_STATIC_DRAW,
    .glEnableVertexAttribArray (toGLuint self.vpos_location),
    .glVertexAttribPointer (toGLuint self.vpos_location) 2 .GL_FLOAT false sizeof_GridVertex 0,
    .glUseProgram self.program,
    .glUniformMatrix4fv self.mvp_location 1 false mvp,
    .glDrawArrays .GL_LINES 0 (toGLsizei self.vertices.length) ]

/-! ## class Ring -/

/-- The members of `class Ring`. -/
structure Ring (F : Type) where
  vertex_buffer : Nat
  vertex_shader : Nat
  fragment_shader : Nat
  program : Nat
  mvp_location : Int
  vpos_location : Int
  vcol_location : Int
  vertices : List (VertexColor F)

/-- The calls of the shader and buffer setup shared, statement for statement,
by `Ring::Create` and `ProjectionLines::Create`. -/
def color_setup_calls {F M : Type} (gl : ColorReturns) : List (Call F M) :=
  [ .glCreateShader .GL_VERTEX_SHADER,
    .glShaderSource gl.glCreateShader_vertex 1 .vertex_shader_text,
    .glCompileShader gl.glCreateShader_vertex,
    .glCreateShader .GL_FRAGMENT_SHADER,
    .glShaderSource gl.glCreateShader_fragment 1 .fragment_shader_text,
    .glCompileShader gl.glCreateShader_fragment,
    .glCreateProgram,
    .glAttachShader gl.glCreateProgram gl.glCreateShader_vertex,
    .glAttachShader gl.glCreateProgram gl.glCreateShader_fragment,
    .glLinkProgram gl.glCreateProgram,
    .glGetUniformLocation gl.glCreateProgram "MVP",
    .glGetAttribLocation gl.glCreateProgram "vPos",
    .glGetAttribLocation gl.glCreateProgram "vCol",
    -- array buffer of vertices
    .glGenBuffers 1 ]

/-- The method `Ring::Create`: the object it initialises and the calls it
makes; no result when `make_ring_vertices` has none. -/
def Ring.Create {F : Type} (M : Type) (ops : FloatArith F) (gl : ColorReturns)
    (num_ring_segments num_ring_segments_per_color : Int) :
    Option (Ring F × List (Call F M)) :=
  let color1 : rgb F := ⟨ops.div (ops.ofRat 28) (ops.ofRat 256),
    ops.div (ops.ofRat 117) (ops.ofRat 256), ops.div (ops.ofRat 138) (ops.ofRat 256)⟩
  let color2 : rgb F := ⟨ops.div (ops.ofRat 88) (ops.ofRat 256),
    ops.div (ops.ofRat 196) (ops.ofRat 256), ops.div (ops.ofRat 221) (ops.ofRat 256)⟩
  let thickness := ops.ofRat 0.05
  match make_ring_vertices ops (ops.sub (ops.ofRat 1) thickness) (ops.ofRat 1)
      num_ring_segments num_ring_segments_per_color color1 color2 with
  | none => none
  | some vertices =>
    some ({ vertex_buffer := gl.glGenBuffers, vertex_shader := gl.glCreateShader_vertex,
            fragment_shader := gl.glCreateShader_fragment, program := gl.glCreateProgram,
            mvp_location := gl.glGetUniformLocation_MVP,
            vpos_location := gl.glGetAttribLocation_vPos,
            vcol_location := gl.glGetAttribLocation_vCol, vertices := vertices },
          color_setup_calls gl)

/-- The method `Ring::Draw`: the calls it makes. -/
def Ring.Draw {F M : Type} (ops : FloatArith F) (lm : LinMath F M) (self : Ring F) :
    List (Call F M) :=
  let m := lm.mat4x4_identity
  -- set the perspective scale
  let p := lm.mat4x4_ortho (ortho_l ops) (ortho_r ops) (ortho_t ops) (ortho_b ops)
    (ops.ofRat 10) (ops.ofRat (-10))
  -- setup the view matrix - ie shift x by -1
  let v := lm.mat4x4_translate (ops.ofRat (-1)) (ops.ofRat 0) (ops.ofRat 0)
  -- make mvp
  let pv := lm.mat4x4_mul p v
  let mvp := lm.mat4x4_mul m pv
  [ .glBindBuffer .GL_ARRAY_BUFFER self.vertex_buffer,
    .glBufferData .GL_ARRAY_BUFFER (self.vertices.length * sizeof_VertexColor)
      (VertexColor.data self.vertices) .GL_STATIC_DRAW,
    .glEnableVertexAttribArray (toGLuint self.vpos_location),
    .glVertexAttribPointer (toGLuint self.vpos_location) 2 .GL_FLOAT false sizeof_VertexColor 0,
    .glEnableVertexAttribArray (toGLuint self.vcol_location),
    .glVertexAttribPointer (toGLuint self.vcol_location) 3 .GL_FLOAT false sizeof_VertexColor
      (sizeof_float * 2),
    .glUseProgram self.program,
    .glUniformMatrix4fv self.mvp_location 1 false mvp,
    .glDrawArrays .GL_QUADS 0 (toGLsizei self.vertices.length) ]

/-! ## class ProjectionLines -/

/-- The members of `class ProjectionLines`. -/
structure ProjectionLines (F : Type) where
  vertex_buffer : Nat
  vertex_shader : Nat
  fragment_shader : Nat
  program : Nat
  mvp_location : Int
  vpos_location : Int
  vcol_location : Int
  vertices : List (VertexColor F)

/-- The method `ProjectionLines::Create`: the object it initialises and the
calls it makes; no result when the vertex computation has none. -/
def ProjectionLines.Create {F : Type} (M : Type) (ops : FloatArith F) (gl : ColorReturns)
    (num_ring_segments num_ring_segments_per_color : Int) :
    Option (ProjectionLines F × List (Call F M)) :=
  match projection_lines_vertices ops num_ring_segments num_ring_segments_per_color with
  | none => none
  | some ret =>
    some ({ vertex_buffer := gl.glGenBuffers, vertex_shader := gl.glCreateShader_vertex,
            fragment_shader := gl.glCreateShader_fragment, program := gl.glCreateProgram,
            mvp_location := gl.glGetUniformLocation_MVP,
            vpos_location := gl.glGetAttribLocation_vPos,
            vcol_location := gl.glGetAttribLocation_vCol, vertices := ret },
          color_setup_calls gl)

/-- The method `ProjectionLines::Draw`: the calls it makes. -/
def ProjectionLines.Draw {F M : Type} (ops : FloatArith F) (lm : LinMath F M)
    (self : ProjectionLines F) : List (Call F M) :=
  let m := lm.mat4x4_identity
  -- set the perspective scale
  let p := lm.mat4x4_ortho (ortho_l ops) (ortho_r ops) (ortho_t ops) (ortho_b ops)
    (ops.ofRat 10) (ops.ofRat (-10))
  -- setup the view matrix - ie shift x by -1
  let v := lm.mat4x4_translate (ops.ofRat (-1)) (ops.ofRat 0) (ops.ofRat 0)
  -- make mvp
  let pv := lm.mat4x4_mul p v
  let mvp := lm.mat4x4_mul m pv
  [ .glBindBuffer .GL_ARRAY_BUFFER self.vertex_buffer,
    .glBufferData .GL_ARRAY_BUFFER (self.vertices.length * sizeof_VertexColor)
      (VertexColor.data self.vertices) .GL_STATIC_DRAW,
    .glEnableVertexAttribArray (toGLuint self.vpos_location),
    .glVertexAttribPointer (toGLuint self.vpos_location) 2 .GL_FLOAT false sizeof_VertexColor 0,
    .glEnableVertexAttribArray (toGLuint self.vcol_location),
    .glVertexAttribPointer (toGLuint self.vcol_location) 3 .GL_FLOAT false sizeof_VertexColor
      (sizeof_float * 2),
    .glUseProgram self.program,
    .glUniformMatrix4fv self.mvp_location 1 false mvp,
    .glDrawArrays .GL_LINES 0 (toGLsizei self.vertices.length) ]

/-! ## main -/

/-- What the window system and OpenGL answer during a run of `main`:
whether `glfwInit` succeeds, whether `glfwCreateWindow` returns a window, the
answer of the `k`-th call of `glfwWindowShouldClose`, the framebuffer size
reported in frame `k`, and the handles returned to the three `Create`s. -/
structure Env where
  glfwInit : Bool
  glfwCreateWindow : Bool
  glfwWindowShouldClose : Nat → Bool
  glfwGetFramebufferSize : Nat → Int × Int
  ring : ColorReturns
  lines : ColorReturns
  grid : GridReturns

/-- The calls of one pass through the body of the `while` loop of `main`, for
frame `k`.  (The unused local `ratio = width / (float)height` makes no call.) -/
def render_frame {F M : Type} (ops : FloatArith F) (lm : LinMath F M) (env : Env)
    (g : Grid F) (r : Ring F) (pl : ProjectionLines F) (k : Nat) : List (Call F M) :=
  let width := (env.glfwGetFramebufferSize k).1
  let height := (env.glfwGetFramebufferSize k).2
  [ .glfwGetFramebufferSize, .glViewport 0 0 width height, .glClear .GL_COLOR_BUFFER_BIT ]
    ++ Grid.Draw ops lm g
    ++ Ring.Draw ops lm r
    ++ ProjectionLines.Draw ops lm pl
    ++ [ .glfwSwapBuffers, .glfwPollEvents ]

/-- The `while (!glfwWindowShouldClose(window))` loop of `main`, entered with
`k` frames rendered and the calls `trace` made so far.  The first argument
bounds the number of frames; the result is `none` when that bound is used up
and the window still does not report that it should close. -/
def render_loop {F M : Type} (ops : FloatArith F) (lm : LinMath F M) (env : Env)
    (g : Grid F) (r : Ring F) (pl : ProjectionLines F) :
    Nat → Nat → List (Call F M) → Option (List (Call F M))
  | 0, k, trace =>
    if !env.glfwWindowShouldClose k then none else some (trace ++ [.glfwWindowShouldClose])
  | fuel + 1, k, trace =>
    if !env.glfwWindowShouldClose k then
      render_loop ops lm env g r pl fuel (k + 1)
        (trace ++ [.glfwWindowShouldClose] ++ render_frame ops lm env g r pl k)
    else some (trace ++ [.glfwWindowShouldClose])

/-- The function `main`: its return value and the calls it makes, in order.
`fuel` bounds the number of frames; the result is `none` when the loop is
still running after `fuel` frames (or a `Create` has no result). -/
def main {F M : Type} (ops : FloatArith F) (lm : LinMath F M) (env : Env) (fuel : Nat) :
    Option (Int × List (Call F M)) :=
  let trace : List (Call F M) := [.glfwSetErrorCallback]
  -- Initialize the library
  let trace := trace ++ [.glfwInit]
  if !env.glfwInit then some (-1, trace) else
  let trace := trace ++ [.glfwWindowHint .GLFW_CONTEXT_VERSION_MAJOR 2,
    .glfwWindowHint .GLFW_CONTEXT_VERSION_MINOR 0, .glfwWindowHint .GLFW_SAMPLES 4]
  -- Create a windowed mode window and its OpenGL context
  let trace := trace ++ [.glfwCreateWindow 640 640 "Hello World"]
  if !env.glfwCreateWindow then some (-1, trace ++ [.glfwTerminate]) else
  -- Make the window's context current
  let trace := trace ++ [.glfwMakeContextCurrent, .gladLoadGL, .glfwSwapInterval 1]
  let num_ring_segments : Int := 64
  let num_segments_per_color : Int := 4
  match Ring.Create M ops env.ring num_ring_segments num_segments_per_color with
  | none => none
  | some (r, r_calls) =>
    let trace := trace ++ r_calls
    match ProjectionLines.Create M ops env.lines num_ring_segments num_segments_per_color with
    | none => none
    | some (pl, pl_calls) =>
      let trace := trace ++ pl_calls
      let (g, g_calls) := Grid.Create M ops env.grid
      let trace := trace ++ g_calls
      -- Loop until the user closes the window
      match render_loop ops lm env g r pl fuel 0 trace with
      | none => none
      | some trace => some (0, trace ++ [.glfwTerminate])

/-! ## Exact rational arithmetic, for evaluating the definitions -/

/-- An interpretation of the `float` primitives over `ℚ`: literals and the
four operations are exact; `cos` and `sin` are the Taylor polynomials of
degree 2 and 3. -/
def ratArith : FloatArith ℚ where
  ofRat := fun q => q
  add := fun a b => a + b
  sub := fun a b => a - b
  mul := fun a b => a * b
  div := fun a b => a / b
  cos := fun t => 1 - t * t / 2
  sin := fun t => t - t * t * t / 6

/-- An interpretation of the `linmath.h` functions over rational 4x4 matrices:
the usual identity, orthographic, translation and product matrices. -/
def ratLinMath : LinMath ℚ (Matrix (Fin 4) (Fin 4) ℚ) where
  mat4x4_identity := 1
  mat4x4_ortho := fun l r b t n f =>
    !![2 / (r - l), 0, 0, -(r + l) / (r - l);
       0, 2 / (t - b), 0, -(t + b) / (t - b);
       0, 0, -2 / (f - n), -(f + n) / (f - n);
       0, 0, 0, 1]
  mat4x4_translate := fun x y z =>
    !![1, 0, 0, x;
       0, 1, 0, y;
       0, 0, 1, z;
       0, 0, 0, 1]
  mat4x4_mul := fun a b => a * b

/-- A run in which initialisation and window creation succeed and the window
reports that it should close at the third query (after two frames). -/
def closingEnv : Env where
  glfwInit := true
  glfwCreateWindow := true
  glfwWindowShouldClose := fun k => decide (2 ≤ k)
  glfwGetFramebufferSize := fun _ => (640, 640)
  ring := ⟨1, 2, 3, 0, 0, 1, 1⟩
  lines := ⟨4, 5, 6, 0, 0, 1, 2⟩
  grid := ⟨3, 7, 8, 9, 0, 0⟩

/-! ## IEEE-754 binary32 arithmetic, for evaluating the definitions -/

/-- The power `2 ^ e` as a rational. -/
def pow2 (e : Int) : ℚ :=
  if 0 ≤ e then ((2 ^ e.toNat : Nat) : ℚ) else 1 / ((2 ^ (-e).toNat : Nat) : ℚ)

/-- The number of binary digits of `n`, found by halving at most `fuel` times. -/
def bit_length_aux : Nat → Nat → Nat
  | 0, _ => 0
  | fuel + 1, n => if n = 0 then 0 else bit_length_aux fuel (n / 2) + 1

/-- The number of binary digits of `n`. -/
def bit_length (n : Nat) : Nat := bit_length_aux n n

/-- The binary exponent of a positive rational `a`: the `e` with
`2 ^ e ≤ a < 2 ^ (e + 1)`. -/
def binary_exponent (a : ℚ) : Int :=
  let e0 : Int := (bit_length a.num.natAbs : Int) - (bit_length a.den : Int)
  if pow2 e0 ≤ a then e0 else e0 - 1

/-- The integer nearest to a non-negative rational, ties to the even one. -/
def round_half_even (m : ℚ) : Int :=
  let f := Rat.floor m
  let r := m - f
  if r < 1 / 2 then f else if 1 / 2 < r then f + 1 else if f % 2 = 0 then f else f + 1

/-- The binary32 value nearest to `q` (24-bit significand, exponents from
-126, ties to even); `none` when it is not finite. -/
def round32 (q : ℚ) : Option ℚ :=
  if q = 0 then some 0 else
  let a := if q < 0 then -q else q
  let e := max (binary_exponent a) (-126)
  let quantum := pow2 (e - 23)
  let v := (round_half_even (a / quantum) : ℚ) * quantum
  if pow2 128 ≤ v then none else some (if q < 0 then -v else v)

/-- The Taylor polynomial of `cos` at 0, of degree 38. -/
def cos_taylor (x : ℚ) : ℚ :=
  ((List.range 20).map (fun j => (-1) ^ j * x ^ (2 * j) / (Nat.factorial (2 * j) : ℚ))).sum

/-- The Taylor polynomial of `sin` at 0, of degree 39. -/
def sin_taylor (x : ℚ) : ℚ :=
  ((List.range 20).map
    (fun j => (-1) ^ j * x ^ (2 * j + 1) / (Nat.factorial (2 * j + 1) : ℚ))).sum

/-- The binary32 interpretation of the `float` primitives: a finite value is
the rational it denotes (the two zeros identified), `none` stands for the
infinities and NaN.  On finite operands every operation returns the binary32
value nearest to the exact result, and `cos`, `sin` the one nearest to the
Taylor polynomial; an overflow, a division by zero and any operation on a
non-finite operand give `none`. -/
def f32Arith : FloatArith (Option ℚ) where
  ofRat := round32
  add := fun a b => a.bind fun x => b.bind fun y => round32 (x + y)
  sub := fun a b => a.bind fun x => b.bind fun y => round32 (x - y)
  mul := fun a b => a.bind fun x => b.bind fun y => round32 (x * y)
  div := fun a b => a.bind fun x => b.bind fun y => if y = 0 then none else round32 (x / y)
  cos := fun a => a.bind fun x => round32 (cos_taylor x)
  sin := fun a => a.bind fun x => round32 (sin_taylor x)

/-! ## Auxiliary lemmas -/

section Aux

variable {F : Type}

theorem wrap32_of_range {x : Int} (h1 : -2147483648 ≤ x) (h2 : x ≤ 2147483647) : wrap32 x = x := by
  unfold wrap32; omega

theorem int_mul_two_ne_zero {s : Int} (h1 : 0 < s) (h2 : s ≤ INT_MAX) : int_mul s 2 ≠ 0 := by
  unfold int_mul wrap32; unfold INT_MAX at h2; omega

theorem int_mod_of_nonneg {a b : Int} (ha : 0 ≤ a) (hb : b ≠ 0) :
    int_mod a b = some (Int.tmod a b) := by
  unfold int_mod INT_MIN
  rw [if_neg]
  rintro (h | ⟨h, _⟩)
  · exact hb h
  · omega

/-- Indexing into a concatenation of blocks of equal length `k`. -/
theorem getElem?_flatMap_blocks {α β : Type} (f : α → List β) (k : Nat)
    (hk : ∀ a, (f a).length = k) (l : List α) (i j : Nat) (hj : j < k) :
    (l.flatMap f)[k * i + j]? = (l[i]?).bind (fun a => (f a)[j]?) := by
  induction l generalizing i with
  | nil => simp
  | cons a l ih =>
    rw [List.flatMap_cons]
    cases i with
    | zero =>
      have hlt : k * 0 + j < (f a).length := by rw [hk]; simpa using hj
      rw [List.getElem?_append_left hlt]
      simp
    | succ i =>
      have hge : (f a).length ≤ k * (i + 1) + j := by
        rw [hk, Nat.mul_succ]; omega
      rw [List.getElem?_append_right hge, hk]
      have : k * (i + 1) + j - k = k * i + j := by rw [Nat.mul_succ]; omega
      rw [this, ih]
      simp

theorem length_flatMap_blocks {α β : Type} (f : α → List β) (k : Nat)
    (hk : ∀ a, (f a).length = k) (l : List α) :
    (l.flatMap f).length = k * l.length := by
  induction l with
  | nil => simp
  | cons a l ih => rw [List.flatMap_cons, List.length_append, ih, hk, List.length_cons, Nat.mul_succ]; omega

theorem make_ring_vertices_loop_eq (ops : FloatArith F) (inner outer : F) (n spc : Int)
    (color1 color2 : rgb F) (hm : int_mul spc 2 ≠ 0) :
    ∀ (fuel k : Nat) (ret : List (VertexColor F)), (k : Int) + fuel = n →
      make_ring_vertices_loop ops inner outer n spc color1 color2
        (ops.div (ops.mul (ops.ofRat 2) (pi ops)) (ops.ofRat n)) (ops.ofRat 0) fuel k ret
      = some (ret ++ (List.range' k fuel).flatMap (ring_slice ops inner outer n spc color1 color2)) := by
  intro fuel
  induction fuel with
  | zero =>
    intro k ret h
    have : ¬ ((k : Int) < n) := by omega
    simp [make_ring_vertices_loop, this]
  | succ fuel ih =>
    intro k ret h
    have hlt : (k : Int) < n := by omega
    have hnext : ((k + 1 : Nat) : Int) + fuel = n := by push_cast; omega
    have hmod := int_mod_of_nonneg (Int.ofNat_nonneg k) hm
    simp only [make_ring_vertices_loop, hlt, if_true, hmod]
    have ih2 := ih (k + 1) 
    push_cast at ih2
    rw [ih2 _ (by omega)]
    simp [List.range', ring_slice, ring_color_index]

/-- When the band test does not divide by zero, `make_ring_vertices` returns the
concatenation of the slices `0 .. num_ring_segments - 1`. -/
theorem make_ring_vertices_eq_of_ne (ops : FloatArith F) (inner outer : F) (n spc : Int)
    (color1 color2 : rgb F) (hm : int_mul spc 2 ≠ 0) :
    make_ring_vertices ops inner outer n spc color1 color2
      = some ((List.range n.toNat).flatMap (ring_slice ops inner outer n spc color1 color2)) := by
  unfold make_ring_vertices
  by_cases hn : 0 ≤ n
  · have h := make_ring_vertices_loop_eq ops inner outer n spc color1 color2
      hm n.toNat 0 [] (by simp [Int.toNat_of_nonneg hn])
    simp only [Nat.cast_zero] at h
    simp only [h, List.nil_append, List.range_eq_range']
  · have h0 : n.toNat = 0 := by omega
    have : ¬ ((0 : Int) < n) := by omega
    simp [h0, make_ring_vertices_loop, this]

/-- With a band width in `1 .. INT_MAX`, `make_ring_vertices` returns the
concatenation of the slices `0 .. num_ring_segments - 1`. -/
theorem make_ring_vertices_eq (ops : FloatArith F) (inner outer : F) (n spc : Int)
    (color1 color2 : rgb F) (hs : 0 < spc) (hmax : spc ≤ INT_MAX) :
    make_ring_vertices ops inner outer n spc color1 color2
      = some ((List.range n.toNat).flatMap (ring_slice ops inner outer n spc color1 color2)) :=
  make_ring_vertices_eq_of_ne ops inner outer n spc color1 color2 (int_mul_two_ne_zero hs hmax)

/-- Whenever `make_ring_vertices` returns for a positive segment count, what it
returns is the concatenation of the slices `0 .. num_ring_segments - 1`. -/
theorem make_ring_vertices_eq_of_some (ops : FloatArith F) (inner outer : F) (n spc : Int)
    (color1 color2 : rgb F) (hn : 0 < n) (out : List (VertexColor F))
    (hout : make_ring_vertices ops inner outer n spc color1 color2 = some out) :
    out = (List.range n.toNat).flatMap (ring_slice ops inner outer n spc color1 color2) := by
  by_cases hm : int_mul spc 2 = 0
  · exfalso
    obtain ⟨m, hm1⟩ : ∃ m, n.toNat = m + 1 := ⟨n.toNat - 1, by omega⟩
    have hmod : int_mod 0 0 = none := by decide
    simp [make_ring_vertices, hm1, make_ring_vertices_loop, hn, hm, hmod] at hout
  · rw [make_ring_vertices_eq_of_ne ops inner outer n spc color1 color2 hm] at hout
    exact (Option.some.inj hout).symm

theorem ring_slice_length (ops : FloatArith F) (inner outer : F) (n spc : Int)
    (color1 color2 : rgb F) (i : Nat) :
    (ring_slice ops inner outer n spc color1 color2 i).length = 4 := rfl

/-- Entry `4 * i + j` of the ring is entry `j` of slice `i`. -/
theorem make_ring_vertices_getElem? (ops : FloatArith F) (inner outer : F) (n spc : Int)
    (color1 color2 : rgb F) (i j : Nat) (hi : (i : Int) < n) (hj : j < 4) :
    ((List.range n.toNat).flatMap (ring_slice ops inner outer n spc color1 color2))[4 * i + j]?
      = (ring_slice ops inner outer n spc color1 color2 i)[j]? := by
  rw [getElem?_flatMap_blocks _ 4 (ring_slice_length ops inner outer n spc color1 color2) _ i j hj]
  have hlt : i < n.toNat := by omega
  rw [List.getElem?_range hlt]
  rfl

theorem ring_color_index_eq {spc : Int} (hs : 0 < spc) (hfit : 2 * spc ≤ INT_MAX) (i : Nat) :
    ring_color_index spc i = if (i : Int) % (2 * spc) < spc then 0 else 1 := by
  unfold ring_color_index int_mul
  unfold INT_MAX at hfit
  rw [wrap32_of_range (by omega) (by omega),
    Int.tmod_eq_emod (Int.ofNat_nonneg i) (by omega), Int.mul_comm]

theorem int_div_of_nonneg {a b : Int} (ha : 0 ≤ a) (hb : b ≠ 0) :
    int_div a b = some (Int.tdiv a b) := by
  unfold int_div INT_MIN
  rw [if_neg]
  rintro (h | ⟨h, _⟩)
  · exact hb h
  · omega

theorem projection_lines_loop_eq (ops : FloatArith F) (m : Int) :
    ∀ (fuel k : Nat) (ret : List (VertexColor F)), (k : Int) + fuel = m →
      projection_lines_loop ops m (ops.div (ops.mul (ops.ofRat 2) (pi ops)) (ops.ofRat m))
        (ops.ofRat 0) ⟨ops.ofRat 1, ops.div (ops.ofRat 242) (ops.ofRat 256), ops.ofRat 0⟩
        fuel k ret
      = some (ret ++ (List.range' k fuel).flatMap (projection_line ops m)) := by
  intro fuel
  induction fuel with
  | zero =>
    intro k ret h
    have : ¬ ((k : Int) < m) := by omega
    simp [projection_lines_loop, this]
  | succ fuel ih =>
    intro k ret h
    have hlt : (k : Int) < m := by omega
    simp only [projection_lines_loop, hlt, if_true]
    have ih2 := ih (k + 1)
    push_cast at ih2
    rw [ih2 _ (by omega)]
    simp [List.range', projection_line]

/-- With a non-negative segment count and a positive band width, the vertex
list of `ProjectionLines::Create` is the concatenation of the lines
`0 .. num_ring_segments / num_ring_segments_per_color - 1`. -/
theorem projection_lines_vertices_eq (ops : FloatArith F) (n spc : Int)
    (hn : 0 ≤ n) (hs : 0 < spc) :
    projection_lines_vertices ops n spc
      = some ((List.range (Int.tdiv n spc).toNat).flatMap
          (projection_line ops (Int.tdiv n spc))) := by
  unfold projection_lines_vertices
  rw [int_div_of_nonneg hn (by omega)]
  have hq : 0 ≤ Int.tdiv n spc := by
    rw [Int.tdiv_eq_ediv hn (le_of_lt hs)]
    exact Int.ediv_nonneg hn (le_of_lt hs)
  have h := projection_lines_loop_eq ops (Int.tdiv n spc) (Int.tdiv n spc).toNat 0 []
    (by simp [Int.toNat_of_nonneg hq])
  simp only [Nat.cast_zero] at h
  simp only [h, List.nil_append, List.range_eq_range']

theorem projection_line_length (ops : FloatArith F) (m : Int) (k : Nat) :
    (projection_line ops m k).length = 2 := rfl

theorem toGLsizei_of_lt {n : Nat} (h : n ≤ 2147483647) : toGLsizei n = n := by
  unfold toGLsizei
  exact wrap32_of_range (by omega) (by omega)

theorem Grid_Draw_draw_calls {M : Type} (ops : FloatArith F) (lm : LinMath F M) (g : Grid F) :
    (Grid.Draw ops lm g).filter Call.isDraw
      = [.glDrawArrays .GL_LINES 0 (toGLsizei g.vertices.length)] := by
  simp [Grid.Draw, Call.isDraw]

theorem Ring_Draw_draw_calls {M : Type} (ops : FloatArith F) (lm : LinMath F M) (r : Ring F) :
    (Ring.Draw ops lm r).filter Call.isDraw
      = [.glDrawArrays .GL_QUADS 0 (toGLsizei r.vertices.length)] := by
  simp [Ring.Draw, Call.isDraw]

theorem ProjectionLines_Draw_draw_calls {M : Type} (ops : FloatArith F) (lm : LinMath F M)
    (pl : ProjectionLines F) :
    (ProjectionLines.Draw ops lm pl).filter Call.isDraw
      = [.glDrawArrays .GL_LINES 0 (toGLsizei pl.vertices.length)] := by
  simp [ProjectionLines.Draw, Call.isDraw]

theorem render_frame_draw_filter {M : Type} (ops : FloatArith F) (lm : LinMath F M) (env : Env)
    (g : Grid F) (r : Ring F) (pl : ProjectionLines F) (k : Nat) :
    (render_frame ops lm env g r pl k).filter Call.isDraw
      = (Grid.Draw ops lm g).filter Call.isDraw ++ (Ring.Draw ops lm r).filter Call.isDraw
        ++ (ProjectionLines.Draw ops lm pl).filter Call.isDraw := by
  simp [render_frame, List.filter_append, Call.isDraw]

theorem render_frame_create_filter {M : Type} (ops : FloatArith F) (lm : LinMath F M) (env : Env)
    (g : Grid F) (r : Ring F) (pl : ProjectionLines F) (k : Nat) :
    (render_frame ops lm env g r pl k).filter Call.isCreate = [] := by
  simp [render_frame, Grid.Draw, Ring.Draw, ProjectionLines.Draw, List.filter_append,
    Call.isCreate]

/-- The loop leaves after exactly `j` frames when the window first reports
that it should close at query `k0 + j`, provided it is allowed `j` frames. -/
theorem render_loop_closes {M : Type} (ops : FloatArith F) (lm : LinMath F M) (env : Env)
    (g : Grid F) (r : Ring F) (pl : ProjectionLines F) :
    ∀ (j fuel k0 : Nat) (trace : List (Call F M)),
      (∀ i, i < j → env.glfwWindowShouldClose (k0 + i) = false) →
      env.glfwWindowShouldClose (k0 + j) = true → j ≤ fuel →
      ∃ out, render_loop ops lm env g r pl fuel k0 trace = some out
        ∧ (out.filter Call.isDraw).length = (trace.filter Call.isDraw).length + 3 * j
        ∧ out.filter Call.isCreate = trace.filter Call.isCreate := by
  intro j
  induction j with
  | zero =>
    intro fuel k0 trace _ hclose _
    rw [Nat.add_zero] at hclose
    refine ⟨trace ++ [.glfwWindowShouldClose], ?_, ?_, ?_⟩
    · cases fuel <;> simp [render_loop, hclose]
    · simp [List.filter_append, Call.isDraw]
    · simp [List.filter_append, Call.isCreate]
  | succ j ih =>
    intro fuel k0 trace hopen hclose hfuel
    obtain ⟨fuel, rfl⟩ : ∃ f, fuel = f + 1 := ⟨fuel - 1, by omega⟩
    have h0 : env.glfwWindowShouldClose k0 = false := by simpa using hopen 0 (by omega)
    have hopen2 : ∀ i, i < j → env.glfwWindowShouldClose (k0 + 1 + i) = false := by
      intro i hi
      have := hopen (i + 1) (by omega)
      rwa [show k0 + 1 + i = k0 + (i + 1) by omega]
    have hclose2 : env.glfwWindowShouldClose (k0 + 1 + j) = true := by
      rwa [show k0 + 1 + j = k0 + (j + 1) by omega]
    obtain ⟨out, hout, hdraw, hcreate⟩ := ih fuel (k0 + 1)
      (trace ++ [.glfwWindowShouldClose] ++ render_frame ops lm env g r pl k0)
      hopen2 hclose2 (by omega)
    refine ⟨out, ?_, ?_, ?_⟩
    · simp only [render_loop, h0, Bool.not_false, if_true]
      exact hout
    · rw [hdraw]
      simp only [List.filter_append, List.length_append, render_frame_draw_filter,
        Grid_Draw_draw_calls, Ring_Draw_draw_calls, ProjectionLines_Draw_draw_calls]
      simp [Call.isDraw]
      omega
    · rw [hcreate]
      simp [List.filter_append, render_frame_create_filter, Call.isCreate]

/-- The loop is still running after `fuel` frames when the window has not
reported that it should close at any of the queries `k0 .. k0 + fuel`. -/
theorem render_loop_running {M : Type} (ops : FloatArith F) (lm : LinMath F M) (env : Env)
    (g : Grid F) (r : Ring F) (pl : ProjectionLines F) :
    ∀ (fuel k0 : Nat) (trace : List (Call F M)),
      (∀ i, i ≤ fuel → env.glfwWindowShouldClose (k0 + i) = false) →
      render_loop ops lm env g r pl fuel k0 trace = none := by
  intro fuel
  induction fuel with
  | zero =>
    intro k0 trace hopen
    have h0 : env.glfwWindowShouldClose k0 = false := by simpa using hopen 0 (by omega)
    simp [render_loop, h0]
  | succ fuel ih =>
    intro k0 trace hopen
    have h0 : env.glfwWindowShouldClose k0 = false := by simpa using hopen 0 (by omega)
    simp only [render_loop, h0, Bool.not_false, if_true]
    apply ih
    intro i hi
    have := hopen (i + 1) (by omega)
    rwa [show k0 + 1 + i = k0 + (i + 1) by omega]

theorem Ring_Create_eq (M : Type) (ops : FloatArith F) (gl : ColorReturns) (n spc : Int)
    (hs : 0 < spc) (hmax : spc ≤ INT_MAX) :
    ∃ r, Ring.Create M ops gl n spc = some (r, color_setup_calls gl)
      ∧ r.vertices.length = 4 * n.toNat := by
  unfold Ring.Create
  simp only [make_ring_vertices_eq ops _ _ n spc _ _ hs hmax]
  refine ⟨_, rfl, ?_⟩
  simp only []
  rw [length_flatMap_blocks _ 4 (ring_slice_length ops _ _ n spc _ _), List.length_range]

theorem ProjectionLines_Create_eq (M : Type) (ops : FloatArith F) (gl : ColorReturns)
    (n spc : Int) (hn : 0 ≤ n) (hs : 0 < spc) :
    ∃ pl, ProjectionLines.Create M ops gl n spc = some (pl, color_setup_calls gl)
      ∧ pl.vertices.length = 2 * (Int.tdiv n spc).toNat := by
  unfold ProjectionLines.Create
  simp only [projection_lines_vertices_eq ops n spc hn hs]
  refine ⟨_, rfl, ?_⟩
  simp only []
  rw [length_flatMap_blocks _ 2 (projection_line_length ops _), List.length_range]

/-- Entry `2 * k + j` of the projection lines is entry `j` of line `k`. -/
theorem projection_lines_getElem? (ops : FloatArith F) (m : Int) (k j : Nat)
    (hk : (k : Int) < m) (hj : j < 2) :
    ((List.range m.toNat).flatMap (projection_line ops m))[2 * k + j]?
      = (projection_line ops m k)[j]? := by
  rw [getElem?_flatMap_blocks _ 2 (projection_line_length ops m) _ k j hj]
  have hlt : k < m.toNat := by omega
  rw [List.getElem?_range hlt]
  rfl

end Aux

/-! ## Claims -/

/-- C1: for every `segment_count > 0` and `segments_per_color_band > 0` (an
`int`, so at most `INT_MAX`), and any radii and colors, `make_ring_vertices`
returns a sequence, and that sequence has exactly `4 * segment_count`
vertices. -/
theorem make_ring_vertices_length {F : Type} (ops : FloatArith F) (inner outer : F)
    (segment_count segments_per_color_band : Int) (color_a color_b : rgb F)
    (hn : 0 < segment_count) (hs : 0 < segments_per_color_band)
    (hmax : segments_per_color_band ≤ INT_MAX) :
    ∃ out, make_ring_vertices ops inner outer segment_count segments_per_color_band
        color_a color_b = some out ∧ (out.length : Int) = 4 * segment_count := by
  refine ⟨_, make_ring_vertices_eq ops inner outer _ _ color_a color_b hs hmax, ?_⟩
  rw [length_flatMap_blocks _ 4 (ring_slice_length ops inner outer _ _ color_a color_b)]
  simp only [List.length_range]
  push_cast
  rw [Int.toNat_of_nonneg (le_of_lt hn)]

theorem make_ring_vertices_length_witness :
    ∃ out, make_ring_vertices ratArith (19 / 20) 1 3 1 ⟨1, 0, 0⟩ ⟨0, 0, 1⟩ = some out
      ∧ (out.length : Int) = 4 * 3 :=
  make_ring_vertices_length ratArith (19 / 20) 1 3 1 ⟨1, 0, 0⟩ ⟨0, 0, 1⟩
    (by decide) (by decide) (by decide)

/-- C2: for every `segment_count > 0` and every slice `i < segment_count`, the
vertices `4i .. 4i+3` of what `make_ring_vertices` returns are, in this order,
inner-start, outer-start, outer-end, inner-end: `(inner*cos t0, inner*sin t0)`,
`(outer*cos t0, outer*sin t0)`, `(outer*cos t1, outer*sin t1)`,
`(inner*cos t1, inner*sin t1)`, all four with one color `c`; and it does
return for every band width in `1 .. INT_MAX`.  Here `t0`, `t1` are the angles
of boundaries `i`, `i + 1` as the code computes them,
`0 + (2*pi/segment_count) * j`; they are the specification's
`j * (2*pi/segment_count)` as soon as `0 + x = x` and `x * y = y * x`. -/
theorem make_ring_vertices_slice {F : Type} (ops : FloatArith F) (inner outer : F)
    (segment_count segments_per_color_band : Int) (color_a color_b : rgb F) (i : Nat)
    (hn : 0 < segment_count) (hi : (i : Int) < segment_count) :
    (∀ out, make_ring_vertices ops inner outer segment_count segments_per_color_band
        color_a color_b = some out →
      ∃ c, out[4 * i]? = some (VertexColor.ofRgb
          (ops.mul inner (ops.cos (segment_angle ops segment_count i)))
          (ops.mul inner (ops.sin (segment_angle ops segment_count i))) c)
      ∧ out[4 * i + 1]? = some (VertexColor.ofRgb
          (ops.mul outer (ops.cos (segment_angle ops segment_count i)))
          (ops.mul outer (ops.sin (segment_angle ops segment_count i))) c)
      ∧ out[4 * i + 2]? = some (VertexColor.ofRgb
          (ops.mul outer (ops.cos (segment_angle ops segment_count (i + 1))))
          (ops.mul outer (ops.sin (segment_angle ops segment_count (i + 1)))) c)
      ∧ out[4 * i + 3]? = some (VertexColor.ofRgb
          (ops.mul inner (ops.cos (segment_angle ops segment_count (i + 1))))
          (ops.mul inner (ops.sin (segment_angle ops segment_count (i + 1)))) c))
    ∧ (0 < segments_per_color_band → segments_per_color_band ≤ INT_MAX →
        (make_ring_vertices ops inner outer segment_count segments_per_color_band
          color_a color_b).isSome = true)
    ∧ ((∀ x, ops.add (ops.ofRat 0) x = x) → (∀ x y, ops.mul x y = ops.mul y x) →
        segment_angle ops segment_count i = spec_angle ops segment_count i
        ∧ segment_angle ops segment_count (i + 1) = spec_angle ops segment_count (i + 1)) := by
  refine ⟨?_, ?_, ?_⟩
  · intro out hout
    rw [make_ring_vertices_eq_of_some ops inner outer _ _ color_a color_b hn out hout]
    refine ⟨if ring_color_index segments_per_color_band i = 0 then color_a else color_b,
      ?_, ?_, ?_, ?_⟩
    · have h := make_ring_vertices_getElem? ops inner outer segment_count
        segments_per_color_band color_a color_b i 0 hi (by decide)
      rw [Nat.add_zero] at h
      rw [h]; rfl
    · rw [make_ring_vertices_getElem? ops inner outer segment_count segments_per_color_band
        color_a color_b i 1 hi (by decide)]
      rfl
    · rw [make_ring_vertices_getElem? ops inner outer segment_count segments_per_color_band
        color_a color_b i 2 hi (by decide)]
      rfl
    · rw [make_ring_vertices_getElem? ops inner outer segment_count segments_per_color_band
        color_a color_b i 3 hi (by decide)]
      rfl
  · intro hs hmax
    rw [make_ring_vertices_eq ops inner outer _ _ color_a color_b hs hmax]
    rfl
  · intro hz hc
    unfold segment_angle spec_angle
    exact ⟨by rw [hz, hc], by rw [hz, hc]⟩

theorem make_ring_vertices_slice_witness :
    ∃ out c, make_ring_vertices ratArith (19 / 20) 1 3 1 ⟨1, 0, 0⟩ ⟨0, 0, 1⟩ = some out
      ∧ out[4 * 2]? = some (VertexColor.ofRgb
          (ratArith.mul (19 / 20) (ratArith.cos (segment_angle ratArith 3 (2 : Nat))))
          (ratArith.mul (19 / 20) (ratArith.sin (segment_angle ratArith 3 (2 : Nat)))) c)
      ∧ out[4 * 2 + 1]? = some (VertexColor.ofRgb
          (ratArith.mul 1 (ratArith.cos (segment_angle ratArith 3 (2 : Nat))))
          (ratArith.mul 1 (ratArith.sin (segment_angle ratArith 3 (2 : Nat)))) c)
      ∧ out[4 * 2 + 2]? = some (VertexColor.ofRgb
          (ratArith.mul 1 (ratArith.cos (segment_angle ratArith 3 ((2 : Nat) + 1))))
          (ratArith.mul 1 (ratArith.sin (segment_angle ratArith 3 ((2 : Nat) + 1)))) c)
      ∧ out[4 * 2 + 3]? = some (VertexColor.ofRgb
          (ratArith.mul (19 / 20) (ratArith.cos (segment_angle ratArith 3 ((2 : Nat) + 1))))
          (ratArith.mul (19 / 20) (ratArith.sin (segment_angle ratArith 3 ((2 : Nat) + 1)))) c)
      ∧ segment_angle ratArith 3 (2 : Nat) = spec_angle ratArith 3 (2 : Nat) := by
  have h := make_ring_vertices_slice ratArith (19 / 20) 1 3 1 ⟨1, 0, 0⟩ ⟨0, 0, 1⟩ 2
    (by decide) (by decide)
  obtain ⟨out, hout⟩ := Option.isSome_iff_exists.mp (h.2.1 (by decide) (by decide))
  obtain ⟨c, h0, h1, h2, h3⟩ := h.1 out hout
  have hlaw := h.2.2 (fun x => zero_add x) (fun x y => mul_comm x y)
  exact ⟨out, c, hout, h0, h1, h2, h3, hlaw.1⟩

/-- C10: for every `segment_count ≥ 2` and every `i` with
`i + 1 < segment_count`, adjacent quads of what `make_ring_vertices` returns
share their common edge: vertex `4i+2` (outer-end of slice `i`) has the
position of vertex `4(i+1)+1` (outer-start of slice `i+1`), and vertex `4i+3`
(inner-end of slice `i`) has the position of vertex `4(i+1)` (inner-start of
slice `i+1`); and it does return for every band width in `1 .. INT_MAX`. -/
theorem make_ring_vertices_shared_edge {F : Type} (ops : FloatArith F) (inner outer : F)
    (segment_count segments_per_color_band : Int) (color_a color_b : rgb F) (i : Nat)
    (hn : 2 ≤ segment_count) (hi : (i : Int) + 1 < segment_count) :
    (∀ out, make_ring_vertices ops inner outer segment_count segments_per_color_band
        color_a color_b = some out →
      ∃ outer_end inner_end inner_start outer_start,
        out[4 * i + 2]? = some outer_end ∧ out[4 * i + 3]? = some inner_end
        ∧ out[4 * (i + 1)]? = some inner_start ∧ out[4 * (i + 1) + 1]? = some outer_start
        ∧ outer_end.pos = outer_start.pos ∧ inner_end.pos = inner_start.pos)
    ∧ (0 < segments_per_color_band → segments_per_color_band ≤ INT_MAX →
        (make_ring_vertices ops inner outer segment_count segments_per_color_band
          color_a color_b).isSome = true) := by
  refine ⟨?_, ?_⟩
  · intro out hout
    rw [make_ring_vertices_eq_of_some ops inner outer _ _ color_a color_b (by omega) out hout]
    have h2 := make_ring_vertices_getElem? ops inner outer segment_count
      segments_per_color_band color_a color_b i 2 (by omega) (by decide)
    have h3 := make_ring_vertices_getElem? ops inner outer segment_count
      segments_per_color_band color_a color_b i 3 (by omega) (by decide)
    have h0 := make_ring_vertices_getElem? ops inner outer segment_count
      segments_per_color_band color_a color_b (i + 1) 0 (by push_cast; omega) (by decide)
    have h1 := make_ring_vertices_getElem? ops inner outer segment_count
      segments_per_color_band color_a color_b (i + 1) 1 (by push_cast; omega) (by decide)
    rw [Nat.add_zero] at h0
    exact ⟨_, _, _, _, h2.trans rfl, h3.trans rfl, h0.trans rfl, h1.trans rfl, rfl, rfl⟩
  · intro hs hmax
    rw [make_ring_vertices_eq ops inner outer _ _ color_a color_b hs hmax]
    rfl

theorem make_ring_vertices_shared_edge_witness :
    ∃ out outer_end inner_end inner_start outer_start,
      make_ring_vertices ratArith (19 / 20) 1 3 1 ⟨1, 0, 0⟩ ⟨0, 0, 1⟩ = some out
      ∧ out[4 * 1 + 2]? = some outer_end ∧ out[4 * 1 + 3]? = some inner_end
      ∧ out[4 * (1 + 1)]? = some inner_start ∧ out[4 * (1 + 1) + 1]? = some outer_start
      ∧ outer_end.pos = outer_start.pos ∧ inner_end.pos = inner_start.pos := by
  have h := make_ring_vertices_shared_edge ratArith (19 / 20) 1 3 1 ⟨1, 0, 0⟩ ⟨0, 0, 1⟩ 1
    (by decide) (by decide)
  obtain ⟨out, hout⟩ := Option.isSome_iff_exists.mp (h.2 (by decide) (by decide))
  obtain ⟨a, b, c, d, h2, h3, h0, h1, hp, hq⟩ := h.1 out hout
  exact ⟨out, a, b, c, d, hout, h2, h3, h0, h1, hp, hq⟩

/-- C3, refuted as stated: with `segment_count = 2147483647` and
`segments_per_color_band = 1073741825`, the `int` product
`segments_per_color_band*2` leaves the 32-bit range and comes out as
`-2147483646`; for slice `i = 2147483646` the band test `i % -2147483646 = 0`
succeeds, so the slice gets `color_a` (and not `color_b`), although
`i mod (2*segments_per_color_band) = i` is not below
`segments_per_color_band`. -/
theorem make_ring_vertices_band_overflow :
    int_mul 1073741825 2 = -2147483646
      ∧ int_mod 2147483646 (-2147483646) = some 0
      ∧ ∃ out v, make_ring_vertices ratArith (19 / 20) 1 2147483647 1073741825
          ⟨1, 0, 0⟩ ⟨0, 0, 1⟩ = some out
        ∧ out[4 * 2147483646]? = some v ∧ v.color = ⟨1, 0, 0⟩ ∧ v.color ≠ ⟨0, 0, 1⟩
        ∧ ¬ ((2147483646 : Int) % (2 * 1073741825) < 1073741825) := by
  have h := make_ring_vertices_getElem? ratArith (19 / 20) 1 2147483647 1073741825
    ⟨1, 0, 0⟩ ⟨0, 0, 1⟩ 2147483646 0 (by decide) (by decide)
  rw [Nat.add_zero] at h
  have hc : ring_color_index 1073741825 2147483646 = 0 := by decide
  refine ⟨by decide, by decide, _, _,
    make_ring_vertices_eq ratArith _ _ _ _ _ _ (by decide) (by decide),
    h.trans rfl, ?_, ?_, by decide⟩
  · simp [ring_slice, VertexColor.color, VertexColor.ofRgb, hc]
  · simp [ring_slice, VertexColor.color, VertexColor.ofRgb, hc]

/-- C3, amended: for every `segment_count > 0`, every
`segments_per_color_band > 0` with `2 * segments_per_color_band ≤ INT_MAX`, all
colors and every slice `i < segment_count`, each of the vertices `4i .. 4i+3`
of `make_ring_vertices` carries `color_a` if
`i mod (2*segments_per_color_band) < segments_per_color_band` and `color_b`
otherwise (so, for distinct colors, it is `color_a` iff that test holds); for
`segment_count = 64`, `segments_per_color_band = 4` the color is `color_a` on
the even bands of four slices (0-3, 8-11, ...) and `color_b` on the odd ones
(4-7, 12-15, ...), 16 bands in all. -/
theorem make_ring_vertices_band_color {F : Type} (ops : FloatArith F) (inner outer : F)
    (segment_count segments_per_color_band : Int) (color_a color_b : rgb F) (i : Nat)
    (hn : 0 < segment_count) (hs : 0 < segments_per_color_band)
    (hfit : 2 * segments_per_color_band ≤ INT_MAX) (hi : (i : Int) < segment_count) :
    ∃ out, make_ring_vertices ops inner outer segment_count segments_per_color_band
        color_a color_b = some out
      ∧ ∀ j, j < 4 → ∃ v, out[4 * i + j]? = some v
        ∧ v.color = (if (i : Int) % (2 * segments_per_color_band) < segments_per_color_band
            then color_a else color_b)
        ∧ (color_a ≠ color_b →
            (v.color = color_a ↔
              (i : Int) % (2 * segments_per_color_band) < segments_per_color_band))
        ∧ (segment_count = 64 → segments_per_color_band = 4 →
            i / 4 < 16 ∧ v.color = (if (i / 4) % 2 = 0 then color_a else color_b)) := by
  have _ := hn
  have hmax : segments_per_color_band ≤ INT_MAX := by omega
  refine ⟨_, make_ring_vertices_eq ops inner outer _ _ color_a color_b hs hmax, ?_⟩
  intro j hj
  have hget := make_ring_vertices_getElem? ops inner outer segment_count segments_per_color_band
    color_a color_b i j hi hj
  have hidx := ring_color_index_eq hs hfit i
  have hcol : ∀ v, (ring_slice ops inner outer segment_count segments_per_color_band
      color_a color_b i)[j]? = some v →
      v.color = (if (i : Int) % (2 * segments_per_color_band) < segments_per_color_band
            then color_a else color_b) := by
    intro v hv
    have hj4 : j = 0 ∨ j = 1 ∨ j = 2 ∨ j = 3 := by omega
    rcases hj4 with rfl | rfl | rfl | rfl <;>
    · simp only [ring_slice, List.getElem?_cons_zero, List.getElem?_cons_succ,
        Option.some.injEq] at hv
      subst hv
      simp only [VertexColor.color, VertexColor.ofRgb, hidx]
      split <;> simp
  have hsome : ∃ v, (ring_slice ops inner outer segment_count segments_per_color_band
      color_a color_b i)[j]? = some v := by
    have : j < (ring_slice ops inner outer segment_count segments_per_color_band
      color_a color_b i).length := by rw [ring_slice_length]; exact hj
    exact ⟨_, List.getElem?_eq_getElem this⟩
  obtain ⟨v, hv⟩ := hsome
  have hvc := hcol v hv
  refine ⟨v, hget.trans hv, hvc, ?_, ?_⟩
  · intro hab
    rw [hvc]
    constructor
    · intro h
      by_contra hcon
      rw [if_neg hcon] at h
      exact hab h.symm
    · intro h
      rw [if_pos h]
  · intro h64 h4
    subst h64 h4
    rw [hvc]
    have hi64 : i < 64 := by omega
    refine ⟨by omega, ?_⟩
    have hiff : ((i : Int) % (2 * 4) < 4) ↔ (i / 4) % 2 = 0 := by omega
    by_cases hc : (i : Int) % (2 * 4) < 4
    · rw [if_pos hc, if_pos (hiff.mp hc)]
    · rw [if_neg hc, if_neg (fun h => hc (hiff.mpr h))]

theorem make_ring_vertices_band_color_witness :
    ∃ out, make_ring_vertices ratArith (19 / 20) 1 64 4 ⟨1, 0, 0⟩ ⟨0, 0, 1⟩ = some out
      ∧ ∀ j, j < 4 → ∃ v, out[4 * 5 + j]? = some v
        ∧ v.color = (if ((5 : Nat) : Int) % (2 * 4) < 4 then ⟨1, 0, 0⟩ else ⟨0, 0, 1⟩)
        ∧ ((⟨1, 0, 0⟩ : rgb ℚ) ≠ ⟨0, 0, 1⟩ →
            (v.color = ⟨1, 0, 0⟩ ↔ ((5 : Nat) : Int) % (2 * 4) < 4))
        ∧ ((64 : Int) = 64 → (4 : Int) = 4 →
            5 / 4 < 16 ∧ v.color = (if (5 / 4) % 2 = 0 then ⟨1, 0, 0⟩ else ⟨0, 0, 1⟩)) :=
  make_ring_vertices_band_color ratArith (19 / 20) 1 64 4 ⟨1, 0, 0⟩ ⟨0, 0, 1⟩ 5
    (by decide) (by decide) (by decide) (by decide)

/-- C4: for every `segment_count ≥ 0` and `segments_per_color_band > 0`,
`ProjectionLines::Create` returns, and the vertex list it builds has exactly
`2 * (segment_count / segments_per_color_band)` vertices (truncating
division); every even-indexed vertex, the first of a line segment, is at
exactly `(-1, 0)`; for `(64, 4)` the list has 32 vertices, 16 segments. -/
theorem projection_lines_vertex_count {F : Type} (M : Type) (ops : FloatArith F)
    (gl : ColorReturns) (segment_count segments_per_color_band : Int)
    (hn : 0 ≤ segment_count) (hs : 0 < segments_per_color_band) :
    ∃ pl calls, ProjectionLines.Create M ops gl segment_count segments_per_color_band
        = some (pl, calls)
      ∧ (pl.vertices.length : Int) = 2 * Int.tdiv segment_count segments_per_color_band
      ∧ (∀ k, 2 * k < pl.vertices.length →
          ∃ v, pl.vertices[2 * k]? = some v ∧ v.pos = (ops.ofRat (-1), ops.ofRat 0))
      ∧ (segment_count = 64 → segments_per_color_band = 4 →
          pl.vertices.length = 32 ∧ pl.vertices.length / 2 = 16) := by
  have hq : 0 ≤ Int.tdiv segment_count segments_per_color_band := by
    rw [Int.tdiv_eq_ediv hn (le_of_lt hs)]
    exact Int.ediv_nonneg hn (le_of_lt hs)
  have hlen : ((List.range (Int.tdiv segment_count segments_per_color_band).toNat).flatMap
      (projection_line ops (Int.tdiv segment_count segments_per_color_band))).length
      = 2 * (Int.tdiv segment_count segments_per_color_band).toNat := by
    rw [length_flatMap_blocks _ 2 (projection_line_length ops _), List.length_range]
  refine ⟨_, _, by
    unfold ProjectionLines.Create
    rw [projection_lines_vertices_eq ops _ _ hn hs], ?_, ?_, ?_⟩
  · simp only [hlen]
    push_cast
    rw [Int.toNat_of_nonneg hq]
  · intro k hk
    simp only [hlen] at hk
    have hget := getElem?_flatMap_blocks
      (projection_line ops (Int.tdiv segment_count segments_per_color_band)) 2
      (projection_line_length ops _)
      (List.range (Int.tdiv segment_count segments_per_color_band).toNat) k 0 (by decide)
    rw [Nat.add_zero, List.getElem?_range (by omega)] at hget
    exact ⟨_, hget.trans rfl, rfl⟩
  · intro h64 h4
    subst h64 h4
    simp only [hlen]
    decide

theorem projection_lines_vertex_count_witness :
    ∃ pl calls, ProjectionLines.Create (List ℚ) ratArith ⟨1, 2, 3, 0, 0, 1, 1⟩ 64 4
        = some (pl, calls)
      ∧ (pl.vertices.length : Int) = 2 * Int.tdiv 64 4
      ∧ (∀ k, 2 * k < pl.vertices.length →
          ∃ v, pl.vertices[2 * k]? = some v ∧ v.pos = (ratArith.ofRat (-1), ratArith.ofRat 0))
      ∧ ((64 : Int) = 64 → (4 : Int) = 4 →
          pl.vertices.length = 32 ∧ pl.vertices.length / 2 = 16) :=
  projection_lines_vertex_count (List ℚ) ratArith ⟨1, 2, 3, 0, 0, 1, 1⟩ 64 4
    (by decide) (by decide)

/-- C5, refuted as stated: vertex 10 of `make_grid_vertices`, the first
vertex of the vertical segment at `x = -2`, has `y = 2.5`, not `y = -2.5`, and
vertex 11, its second vertex, has `y = -2.5`, not `y = 2.5`. -/
theorem make_grid_vertices_vertical_order :
    (make_grid_vertices ratArith)[10]? = some ⟨-2, 5 / 2⟩
      ∧ (make_grid_vertices ratArith)[11]? = some ⟨-2, -(5 / 2)⟩
      ∧ (make_grid_vertices ratArith)[10]? ≠ some ⟨-2, -(5 / 2)⟩
      ∧ (make_grid_vertices ratArith)[11]? ≠ some ⟨-2, 5 / 2⟩ := by
  simp only [make_grid_vertices, ratArith, List.getElem?_cons_succ, List.getElem?_cons_zero]
  norm_num

/-- C5, amended: `make_grid_vertices` takes no input and returns a constant
sequence of exactly 20 vertices in which each consecutive pair `(2k, 2k+1)` is
one segment: 5 horizontal segments, at `y = 2, 1, 0, -1, -2`, each running from
`x = -2.5` (first vertex) to `x = 2.5` (second vertex), then 5 vertical
segments, at `x = -2, -1, 0, 1, 2`, each running from `y = 2.5` (first vertex)
to `y = -2.5` (second vertex). -/
theorem make_grid_vertices_layout {F : Type} (ops : FloatArith F) :
    (make_grid_vertices ops).length = 20
      ∧ ∀ k : Fin 5,
        (make_grid_vertices ops)[2 * k.val]? = some ⟨ops.ofRat (-2.5), ops.ofRat (2 - k.val)⟩
        ∧ (make_grid_vertices ops)[2 * k.val + 1]? = some ⟨ops.ofRat 2.5, ops.ofRat (2 - k.val)⟩
        ∧ (make_grid_vertices ops)[10 + 2 * k.val]?
            = some ⟨ops.ofRat (k.val - 2), ops.ofRat 2.5⟩
        ∧ (make_grid_vertices ops)[10 + 2 * k.val + 1]?
            = some ⟨ops.ofRat (k.val - 2), ops.ofRat (-2.5)⟩ := by
  refine ⟨rfl, ?_⟩
  intro k
  fin_cases k <;>
  · simp only [make_grid_vertices]
    norm_num

/-- C6: with the program's parameters `segment_count = 64`,
`segments_per_color_band = 4`, once `Ring`, `ProjectionLines` and `Grid` have
been created, one pass of the render loop issues exactly three draw calls, in
this order: the `Grid` over 20 vertices as `GL_LINES`, the `Ring` over 256
vertices as `GL_QUADS`, the `ProjectionLines` over 32 vertices as `GL_LINES`;
each starts at vertex 0 and covers the number of vertices of that object's
buffer. -/
theorem render_frame_draw_calls {F M : Type} (ops : FloatArith F) (lm : LinMath F M)
    (env : Env) (k : Nat) :
    ∃ r r_calls pl pl_calls,
      Ring.Create M ops env.ring 64 4 = some (r, r_calls)
      ∧ ProjectionLines.Create M ops env.lines 64 4 = some (pl, pl_calls)
      ∧ (render_frame ops lm env (Grid.Create M ops env.grid).1 r pl k).filter Call.isDraw
          = [.glDrawArrays .GL_LINES 0 20, .glDrawArrays .GL_QUADS 0 256,
             .glDrawArrays .GL_LINES 0 32]
      ∧ (Grid.Draw ops lm (Grid.Create M ops env.grid).1).filter Call.isDraw
          = [.glDrawArrays .GL_LINES 0 20]
      ∧ (Ring.Draw ops lm r).filter Call.isDraw = [.glDrawArrays .GL_QUADS 0 256]
      ∧ (ProjectionLines.Draw ops lm pl).filter Call.isDraw = [.glDrawArrays .GL_LINES 0 32]
      ∧ (Grid.Create M ops env.grid).1.vertices.length = 20
      ∧ r.vertices.length = 256 ∧ pl.vertices.length = 32 := by
  obtain ⟨r, hr, hrlen⟩ := Ring_Create_eq M ops env.ring 64 4 (by decide) (by decide)
  obtain ⟨pl, hpl, hpllen⟩ := ProjectionLines_Create_eq M ops env.lines 64 4
    (by decide) (by decide)
  have hr256 : r.vertices.length = 256 := by rw [hrlen]; decide
  have hpl32 : pl.vertices.length = 32 := by rw [hpllen]; decide
  have hg20 : (Grid.Create M ops env.grid).1.vertices.length = 20 := rfl
  have hg : (Grid.Draw ops lm (Grid.Create M ops env.grid).1).filter Call.isDraw
      = [.glDrawArrays .GL_LINES 0 20] := by
    rw [Grid_Draw_draw_calls, hg20, toGLsizei_of_lt (by decide)]; rfl
  have hrd : (Ring.Draw ops lm r).filter Call.isDraw = [.glDrawArrays .GL_QUADS 0 256] := by
    rw [Ring_Draw_draw_calls, hr256, toGLsizei_of_lt (by decide)]; rfl
  have hpd : (ProjectionLines.Draw ops lm pl).filter Call.isDraw
      = [.glDrawArrays .GL_LINES 0 32] := by
    rw [ProjectionLines_Draw_draw_calls, hpl32, toGLsizei_of_lt (by decide)]; rfl
  refine ⟨r, _, pl, _, hr, hpl, ?_, hg, hrd, hpd, hg20, hr256, hpl32⟩
  rw [render_frame_draw_filter, hg, hrd, hpd]
  rfl

/-- C7: `Grid::Draw`, `Ring::Draw` and `ProjectionLines::Draw` each upload one
transform, and it is the same one, whatever the object's state:
`identity * (ortho(-4, 4, -4, 4, 10, -10) * translate(-1, 0, 0))`, where the
arguments of `ortho` fill the slots left, right, bottom, top, near, far. -/
theorem draw_transform_fixed {F M : Type} (ops : FloatArith F) (lm : LinMath F M)
    (g : Grid F) (r : Ring F) (pl : ProjectionLines F) :
    (Grid.Draw ops lm g).filterMap Call.uniformMatrix
        = [lm.mat4x4_mul lm.mat4x4_identity
            (lm.mat4x4_mul
              (lm.mat4x4_ortho (ops.ofRat (-4)) (ops.ofRat 4) (ops.ofRat (-4)) (ops.ofRat 4)
                (ops.ofRat 10) (ops.ofRat (-10)))
              (lm.mat4x4_translate (ops.ofRat (-1)) (ops.ofRat 0) (ops.ofRat 0)))]
      ∧ (Ring.Draw ops lm r).filterMap Call.uniformMatrix
          = (Grid.Draw ops lm g).filterMap Call.uniformMatrix
      ∧ (ProjectionLines.Draw ops lm pl).filterMap Call.uniformMatrix
          = (Grid.Draw ops lm g).filterMap Call.uniformMatrix := by
  have h4 : ((-4.0 : ℚ)) = -4 := by norm_num
  have h4p : ((4.0 : ℚ)) = 4 := by norm_num
  refine ⟨?_, ?_, ?_⟩
  · simp [Grid.Draw, Call.uniformMatrix, ortho_l, ortho_r, ortho_t, ortho_b, h4, h4p]
  · simp [Grid.Draw, Ring.Draw, Call.uniformMatrix]
  · simp [Grid.Draw, ProjectionLines.Draw, Call.uniformMatrix]

/-- C8: `main` returns -1 when `glfwInit` fails, having made no call after it;
it returns -1 when window creation fails, its last call being `glfwTerminate`;
in neither case is a resource of a Drawable created or a draw call issued.
Otherwise, when the window first reports that it should close at query `k`
(after `k` frames), `main` returns 0, its last call being `glfwTerminate`,
after exactly `3 * k` draw calls, and it does not return within fewer than `k`
frames. -/
theorem main_exit_code {F M : Type} (ops : FloatArith F) (lm : LinMath F M) (env : Env) :
    (env.glfwInit = false → ∀ fuel,
        main ops lm env fuel = some (-1, [.glfwSetErrorCallback, .glfwInit]))
    ∧ (env.glfwInit = true → env.glfwCreateWindow = false → ∀ fuel,
        ∃ trace, main ops lm env fuel = some (-1, trace)
          ∧ trace = [.glfwSetErrorCallback, .glfwInit,
              .glfwWindowHint .GLFW_CONTEXT_VERSION_MAJOR 2,
              .glfwWindowHint .GLFW_CONTEXT_VERSION_MINOR 0,
              .glfwWindowHint .GLFW_SAMPLES 4,
              .glfwCreateWindow 640 640 "Hello World", .glfwTerminate]
          ∧ trace.filter Call.isCreate = [] ∧ trace.filter Call.isDraw = [])
    ∧ (env.glfwInit = true → env.glfwCreateWindow = true → ∀ k,
        (∀ i, i < k → env.glfwWindowShouldClose i = false) →
        env.glfwWindowShouldClose k = true →
        (∀ fuel, k ≤ fuel → ∃ trace, main ops lm env fuel = some (0, trace)
          ∧ trace.getLast? = some .glfwTerminate
          ∧ (trace.filter Call.isDraw).length = 3 * k)
        ∧ (∀ fuel, fuel < k → main ops lm env fuel = none)) := by
  refine ⟨?_, ?_, ?_⟩
  · intro hinit fuel
    simp [main, hinit]
  · intro hinit hwin fuel
    refine ⟨_, ?_, rfl, ?_, ?_⟩
    · simp [main, hinit, hwin]
    · simp [Call.isCreate]
    · simp [Call.isDraw]
  · intro hinit hwin k hopen hclose
    obtain ⟨r, hr, _⟩ := Ring_Create_eq M ops env.ring 64 4 (by decide) (by decide)
    obtain ⟨pl, hpl, _⟩ := ProjectionLines_Create_eq M ops env.lines 64 4
      (by decide) (by decide)
    constructor
    · intro fuel hfuel
      obtain ⟨out, hout, hdraw, _⟩ := render_loop_closes ops lm env
        (Grid.Create M ops env.grid).1 r pl k fuel 0
        ([.glfwSetErrorCallback, .glfwInit,
          .glfwWindowHint .GLFW_CONTEXT_VERSION_MAJOR 2,
          .glfwWindowHint .GLFW_CONTEXT_VERSION_MINOR 0,
          .glfwWindowHint .GLFW_SAMPLES 4,
          .glfwCreateWindow 640 640 "Hello World",
          .glfwMakeContextCurrent, .gladLoadGL, .glfwSwapInterval 1]
          ++ color_setup_calls env.ring ++ color_setup_calls env.lines
          ++ (Grid.Create M ops env.grid).2)
        (by simpa using hopen) (by simpa using hclose) hfuel
      refine ⟨out ++ [.glfwTerminate], ?_, ?_, ?_⟩
      · simp only [main, hinit, hwin, hr, hpl]
        simp only [Bool.not_true, Bool.false_eq_true, if_false, List.append_assoc,
          List.cons_append, List.nil_append] at hout ⊢
        rw [hout]
      · simp
      · rw [List.filter_append, List.length_append, hdraw]
        simp [List.filter_append, color_setup_calls, Grid.Create, Call.isDraw]
    · intro fuel hfuel
      have hrun := render_loop_running ops lm env (Grid.Create M ops env.grid).1 r pl fuel 0
        ([.glfwSetErrorCallback, .glfwInit,
          .glfwWindowHint .GLFW_CONTEXT_VERSION_MAJOR 2,
          .glfwWindowHint .GLFW_CONTEXT_VERSION_MINOR 0,
          .glfwWindowHint .GLFW_SAMPLES 4,
          .glfwCreateWindow 640 640 "Hello World",
          .glfwMakeContextCurrent, .gladLoadGL, .glfwSwapInterval 1]
          ++ color_setup_calls env.ring ++ color_setup_calls env.lines
          ++ (Grid.Create M ops env.grid).2)
        (by intro i hi; simpa using hopen i (by omega))
      simp only [main, hinit, hwin, hr, hpl]
      simp only [Bool.not_true, Bool.false_eq_true, if_false, List.append_assoc,
        List.cons_append, List.nil_append] at hrun ⊢
      rw [hrun]

theorem main_exit_code_witness :
    (∀ fuel, 2 ≤ fuel → ∃ trace, main ratArith ratLinMath closingEnv fuel = some (0, trace)
        ∧ trace.getLast? = some .glfwTerminate
        ∧ (trace.filter Call.isDraw).length = 3 * 2)
      ∧ (∀ fuel, fuel < 2 → main ratArith ratLinMath closingEnv fuel = none) :=
  (main_exit_code ratArith ratLinMath closingEnv).2.2 rfl rfl 2
    (by intro i hi; simp [closingEnv]; omega) (by simp [closingEnv])

/-- C9, refuted as stated: in binary32, with `segment_count = 18`,
`segments_per_color_band = 3` and `k = 5`, the line angle
`0 + (2*pi/6) * 5 = 5490331 / 2^20` and the ring angle
`0 + (2*pi/18) * 15 = 10980663 / 2^21` differ by one unit in the last place,
and the second vertex of projection line 5 is not at the position of the
outer-start vertex of ring slice 15. -/
theorem projection_line_off_band_boundary :
    segment_angle f32Arith 6 5 = some ((5490331 : ℚ) / 1048576)
      ∧ segment_angle f32Arith 18 15 = some ((10980663 : ℚ) / 2097152)
      ∧ ∃ (lines ring : List (VertexColor (Option ℚ))),
        projection_lines_vertices f32Arith 18 3 = some lines
        ∧ make_ring_vertices f32Arith (f32Arith.ofRat 0.95) (f32Arith.ofRat 1) 18 3
            ⟨some 1, some 0, some 0⟩ ⟨some 0, some 0, some 1⟩ = some ring
        ∧ (lines[2 * 5 + 1]?).map VertexColor.pos
            = some (some ((16777213 : ℚ) / 33554432), some ((-1816187 : ℚ) / 2097152))
        ∧ (ring[4 * (5 * 3) + 1]?).map VertexColor.pos
            = some (some ((4194307 : ℚ) / 8388608), some ((-3632373 : ℚ) / 4194304))
        ∧ (lines[2 * 5 + 1]?).map VertexColor.pos ≠ (ring[4 * (5 * 3) + 1]?).map VertexColor.pos := by
  have hl := projection_lines_vertices_eq f32Arith 18 3 (by decide) (by decide)
  have hr := make_ring_vertices_eq f32Arith (f32Arith.ofRat 0.95) (f32Arith.ofRat 1) 18 3
    ⟨some 1, some 0, some 0⟩ ⟨some 0, some 0, some 1⟩ (by decide) (by decide)
  have hq : Int.tdiv 18 3 = 6 := by decide
  rw [hq] at hl
  have hlv := projection_lines_getElem? f32Arith 6 5 1 (by decide) (by decide)
  have hrv := make_ring_vertices_getElem? f32Arith (f32Arith.ofRat 0.95) (f32Arith.ofRat 1) 18 3
    ⟨some 1, some 0, some 0⟩ ⟨some 0, some 0, some 1⟩ 15 1 (by decide) (by decide)
  have hlp : (((List.range (6 : Int).toNat).flatMap (projection_line f32Arith 6))[2 * 5 + 1]?).map
      VertexColor.pos = some (some ((16777213 : ℚ) / 33554432), some ((-1816187 : ℚ) / 2097152)) := by
    rw [hlv]; decide!
  have hrp : (((List.range (18 : Int).toNat).flatMap (ring_slice f32Arith (f32Arith.ofRat 0.95)
      (f32Arith.ofRat 1) 18 3 ⟨some 1, some 0, some 0⟩ ⟨some 0, some 0, some 1⟩))[4 * (5 * 3) + 1]?).map
      VertexColor.pos = some (some ((4194307 : ℚ) / 8388608), some ((-3632373 : ℚ) / 4194304)) := by
    rw [show 4 * (5 * 3) + 1 = 4 * 15 + 1 from rfl, hrv]; decide!
  refine ⟨by decide!, by decide!, _, _, hl, hr, hlp, hrp, ?_⟩
  rw [hlp, hrp]
  decide!

/-- C9, amended: for every `segment_count` in `1 .. INT_MAX`, every
`segments_per_color_band > 0` dividing it and every
`k < segment_count / segments_per_color_band`, both vertex lists are returned;
the second vertex of projection line `k` (index `2k+1`) is `(cos t, sin t)` at
the angle `t = 0 + (2*pi/(segment_count/segments_per_color_band)) * k`, the
outer-start vertex of ring slice `k * segments_per_color_band` (index
`4*k*segments_per_color_band + 1`, outer radius 1) is `(1*cos t', 1*sin t')` at
the angle `t' = 0 + (2*pi/segment_count) * (k*segments_per_color_band)`; the two
positions are equal whenever `t = t'` and multiplying `cos t'` and `sin t'` by
1 leaves them unchanged. -/
theorem projection_line_band_boundary {F : Type} (ops : FloatArith F) (inner : F)
    (segment_count segments_per_color_band : Int) (color_a color_b : rgb F) (k : Nat)
    (hn : 0 < segment_count) (hmax : segment_count ≤ INT_MAX)
    (hs : 0 < segments_per_color_band) (hdvd : segments_per_color_band ∣ segment_count)
    (hk : (k : Int) < Int.tdiv segment_count segments_per_color_band) :
    ∃ lines ring,
      projection_lines_vertices ops segment_count segments_per_color_band = some lines
      ∧ make_ring_vertices ops inner (ops.ofRat 1) segment_count segments_per_color_band
          color_a color_b = some ring
      ∧ (lines[2 * k + 1]?).map VertexColor.pos
          = some (ops.cos (segment_angle ops
                (Int.tdiv segment_count segments_per_color_band) k),
              ops.sin (segment_angle ops
                (Int.tdiv segment_count segments_per_color_band) k))
      ∧ (ring[4 * (k * segments_per_color_band.toNat) + 1]?).map VertexColor.pos
          = some (ops.mul (ops.ofRat 1)
                (ops.cos (segment_angle ops segment_count (k * segments_per_color_band))),
              ops.mul (ops.ofRat 1)
                (ops.sin (segment_angle ops segment_count (k * segments_per_color_band))))
      ∧ (segment_angle ops (Int.tdiv segment_count segments_per_color_band) k
            = segment_angle ops segment_count (k * segments_per_color_band) →
          ops.mul (ops.ofRat 1)
              (ops.cos (segment_angle ops segment_count (k * segments_per_color_band)))
            = ops.cos (segment_angle ops segment_count (k * segments_per_color_band)) →
          ops.mul (ops.ofRat 1)
              (ops.sin (segment_angle ops segment_count (k * segments_per_color_band)))
            = ops.sin (segment_angle ops segment_count (k * segments_per_color_band)) →
          (lines[2 * k + 1]?).map VertexColor.pos
            = (ring[4 * (k * segments_per_color_band.toNat) + 1]?).map VertexColor.pos) := by
  have hle : segments_per_color_band ≤ segment_count := Int.le_of_dvd hn hdvd
  have hq : Int.tdiv segment_count segments_per_color_band
      = segment_count / segments_per_color_band :=
    Int.tdiv_eq_ediv (le_of_lt hn) (le_of_lt hs)
  have hmul : segments_per_color_band * (segment_count / segments_per_color_band)
      = segment_count := Int.mul_ediv_cancel' hdvd
  have hcast : ((k * segments_per_color_band.toNat : Nat) : Int) = k * segments_per_color_band := by
    push_cast
    rw [Int.toNat_of_nonneg (le_of_lt hs)]
  have hidx : ((k * segments_per_color_band.toNat : Nat) : Int) < segment_count := by
    rw [hcast]
    rw [hq] at hk
    nlinarith
  have hl := projection_lines_vertices_eq ops segment_count segments_per_color_band
    (le_of_lt hn) hs
  have hr := make_ring_vertices_eq ops inner (ops.ofRat 1) segment_count
    segments_per_color_band color_a color_b hs (le_trans hle hmax)
  have hlv := projection_lines_getElem? ops (Int.tdiv segment_count segments_per_color_band)
    k 1 hk (by decide)
  have hrv := make_ring_vertices_getElem? ops inner (ops.ofRat 1) segment_count
    segments_per_color_band color_a color_b (k * segments_per_color_band.toNat) 1 hidx
    (by decide)
  have hlp : (((List.range (Int.tdiv segment_count segments_per_color_band).toNat).flatMap
      (projection_line ops (Int.tdiv segment_count segments_per_color_band)))[2 * k + 1]?).map
      VertexColor.pos
      = some (ops.cos (segment_angle ops
                (Int.tdiv segment_count segments_per_color_band) k),
              ops.sin (segment_angle ops
                (Int.tdiv segment_count segments_per_color_band) k)) := by
    rw [hlv]; rfl
  have hrp : (((List.range segment_count.toNat).flatMap (ring_slice ops inner (ops.ofRat 1)
      segment_count segments_per_color_band color_a color_b))[4 *
        (k * segments_per_color_band.toNat) + 1]?).map VertexColor.pos
      = some (ops.mul (ops.ofRat 1)
                (ops.cos (segment_angle ops segment_count (k * segments_per_color_band))),
              ops.mul (ops.ofRat 1)
                (ops.sin (segment_angle ops segment_count (k * segments_per_color_band)))) := by
    rw [hrv, ← hcast]; rfl
  refine ⟨_, _, hl, hr, hlp, hrp, ?_⟩
  intro hang hcos hsin
  rw [hlp, hrp, hang, hcos, hsin]

theorem projection_line_band_boundary_witness :
    ∃ (lines ring : List (VertexColor (Option ℚ))),
      projection_lines_vertices f32Arith 64 4 = some lines
      ∧ make_ring_vertices f32Arith (f32Arith.ofRat 0.95) (f32Arith.ofRat 1) 64 4
          ⟨some 1, some 0, some 0⟩ ⟨some 0, some 0, some 1⟩ = some ring
      ∧ (lines[2 * 5 + 1]?).map VertexColor.pos
          = (ring[4 * (5 * (4 : Int).toNat) + 1]?).map VertexColor.pos := by
  obtain ⟨lines, ring, hl, hr, _, _, h⟩ := projection_line_band_boundary f32Arith
    (f32Arith.ofRat 0.95) 64 4 ⟨some 1, some 0, some 0⟩ ⟨some 0, some 0, some 1⟩ 5
    (by decide) (by decide) (by decide) (by decide) (by decide)
  exact ⟨lines, ring, hl, hr, h (by decide!) (by decide!) (by decide!)⟩

end Projections
